import Mathlib

/-!
# Verification of `actix-web-lab` response-body mapping middleware and `LocalData` extractor

Shallow embedding of two source files:

* `src/actix-web-lab/src/middleware_map_response_body.rs` — the
  `map_response_body` middleware: a factory (`MapResBodyMiddleware`), a
  per-layer service (`MapResBodyService`) and a hand-rolled future
  (`MapResBodyFut`) that first awaits the future of the wrapped service,
  then splits the response into head and body, feeds the body to the
  user-supplied mapper function, and reassembles the response from the
  stored head and the output body of the mapper.

* `src/src/local_data.rs` — the `LocalData<T>` extractor: a typed
  app-data lookup that succeeds with a clone of the registered shared
  handle, or logs a diagnostic and yields an internal-server-error value.

Rust futures are modelled as a countdown: a `Fut` holds the number of
polls that return `Pending` before the stored `result` is returned
`Ready`.  Polling decrements the countdown, exactly mirroring how the
pinned futures in the source are polled in place.  The `MapResBodyFut`
state machine is translated arm-by-arm from `MapResBodyFut::poll`;
`drive` is the external executor repeatedly polling until completion,
with fuel bounding the number of polls.
-/

namespace ActixWebLab

/-- Opaque model of `actix_web::Error`: the middleware never inspects it,
`local_data.rs` builds one with `error::ErrorInternalServerError`. -/
structure Error where
  status : Nat
  message : String
deriving DecidableEq, Repr

/-- Opaque model of `actix_web::HttpRequest` as seen by the middleware:
a handle carried through `into_parts` / `ServiceResponse::new`. -/
structure HttpRequest where
  id : Nat
deriving DecidableEq, Repr

/-- Model of `actix_web::HttpResponse<B>`: status line, header map and body.
`HttpResponse Unit` plays the role of the head-only `HttpResponse<()>`. -/
structure HttpResponse (B : Type) where
  status : Nat
  headers : List (String × String)
  body : B
deriving DecidableEq, Repr

/-- Source `HttpResponse::into_parts`: split into the head (`HttpResponse<()>`)
and the body. -/
def HttpResponse.into_parts {B : Type} (r : HttpResponse B) :
    HttpResponse Unit × B :=
  (⟨r.status, r.headers, ()⟩, r.body)

/-- Source `HttpResponse::<()>::set_body`: reattach a body to a head. -/
def HttpResponse.set_body {B2 : Type} (r : HttpResponse Unit) (b : B2) :
    HttpResponse B2 :=
  ⟨r.status, r.headers, b⟩

/-- Model of `actix_web::dev::ServiceResponse<B>`: the originating request
handle paired with the response. -/
structure ServiceResponse (B : Type) where
  request : HttpRequest
  response : HttpResponse B
deriving DecidableEq, Repr

/-- Source `ServiceResponse::into_parts`. -/
def ServiceResponse.into_parts {B : Type} (r : ServiceResponse B) :
    HttpRequest × HttpResponse B :=
  (r.request, r.response)

/-- Source `ServiceResponse::new`. -/
def ServiceResponse.new {B : Type} (req : HttpRequest) (res : HttpResponse B) :
    ServiceResponse B :=
  ⟨req, res⟩

/-- Model of `actix_web::dev::ServiceRequest`: the middleware passes it to
the wrapped service untouched. -/
structure ServiceRequest where
  request : HttpRequest
deriving DecidableEq, Repr

/-- A Rust future modelled as a countdown: `delay` polls return `Pending`,
then the future is `Ready` with `result`. -/
structure Fut (α : Type) where
  delay : Nat
  result : α
deriving DecidableEq, Repr

/-- One poll of a `Fut`: either still pending (countdown decremented,
the pinned future was advanced in place) or ready with the result. -/
def Fut.poll {α : Type} : Fut α → Fut α ⊕ α
  | ⟨0, r⟩ => Sum.inr r
  | ⟨n + 1, r⟩ => Sum.inl ⟨n, r⟩

/-- The `MapResBodyFutState` pinned enum from the source:
`Svc` awaits the future of the wrapped service; `Fn` awaits the future
of the mapper function while holding the request handle and the head in
`Option` slots (take-on-completion). -/
inductive MapResBodyFutState (B B2 : Type) where
  | Svc (fut : Fut (Except Error (ServiceResponse B)))
  | Fn (fut : Fut (Except Error B2)) (req : Option HttpRequest)
      (res : Option (HttpResponse Unit))

/-- The `MapResBodyFut` struct: the shared mapper function (`mw_fn`,
an `Rc<F>` clone) and the current state. -/
structure MapResBodyFut (B B2 : Type) where
  mw_fn : B → Fut (Except Error B2)
  state : MapResBodyFutState B B2

/-- Outcome of one call to `MapResBodyFut::poll`:
`pending` returns `Poll::Pending` leaving the future in a new state,
`ready` returns `Poll::Ready` with the final result, and `fault` models
a panic of the `Option::unwrap` calls in the `Fn` arm. -/
inductive PollResult (B B2 : Type) where
  | pending (next : MapResBodyFut B B2)
  | ready (out : Except Error (ServiceResponse B2))
  | fault

/-- The `Fn` arm of `MapResBodyFut::poll`: poll the mapper future; on
`Pending` suspend; on `Ready(Err)` the `?` operator propagates the error;
on `Ready(Ok(body))` take the stored request and head (`unwrap` faults if
either slot is empty) and reassemble the response. -/
def MapResBodyFut.pollFn {B B2 : Type} (mw_fn : B → Fut (Except Error B2))
    (fut : Fut (Except Error B2)) (req : Option HttpRequest)
    (res : Option (HttpResponse Unit)) : PollResult B B2 :=
  match fut.poll with
  | Sum.inl fut' => PollResult.pending ⟨mw_fn, MapResBodyFutState.Fn fut' req res⟩
  | Sum.inr (Except.error e) => PollResult.ready (Except.error e)
  | Sum.inr (Except.ok body) =>
    match req, res with
    | some req, some res =>
      PollResult.ready (Except.ok (ServiceResponse.new req (res.set_body body)))
    | _, _ => PollResult.fault

/-- Source `MapResBodyFut::poll`.  In the `Svc` arm: poll the future of the
wrapped service (`ready!` suspends on `Pending`, `?` propagates `Err`); on
success split the response into request handle, head and body, invoke the
mapper on the body, store the handle and head, and — as the `self.poll(cx)`
re-entry in the source — immediately run the `Fn` arm on the fresh mapper
future within the same poll. -/
def MapResBodyFut.poll {B B2 : Type} (f : MapResBodyFut B B2) : PollResult B B2 :=
  match f.state with
  | MapResBodyFutState.Svc fut =>
    match fut.poll with
    | Sum.inl fut' => PollResult.pending ⟨f.mw_fn, MapResBodyFutState.Svc fut'⟩
    | Sum.inr (Except.error e) => PollResult.ready (Except.error e)
    | Sum.inr (Except.ok r) =>
      let (req, res0) := r.into_parts
      let (res, body) := res0.into_parts
      let fut := f.mw_fn body
      MapResBodyFut.pollFn f.mw_fn fut (some req) (some res)
  | MapResBodyFutState.Fn fut req res => MapResBodyFut.pollFn f.mw_fn fut req res

instance {ε α : Type} [DecidableEq ε] [DecidableEq α] : DecidableEq (Except ε α)
  | Except.ok a, Except.ok b =>
    if h : a = b then isTrue (by rw [h]) else isFalse (by intro hh; cases hh; exact h rfl)
  | Except.error a, Except.error b =>
    if h : a = b then isTrue (by rw [h]) else isFalse (by intro hh; cases hh; exact h rfl)
  | Except.ok _, Except.error _ => isFalse (by intro hh; cases hh)
  | Except.error _, Except.ok _ => isFalse (by intro hh; cases hh)

/-- Final observation of driving a `MapResBodyFut` to completion. -/
inductive DriveResult (B2 : Type) where
  | out (r : Except Error (ServiceResponse B2))
  | fault
  | timeout
deriving DecidableEq, Repr

/-- The executor: poll the future until it completes, `fuel` bounding the
number of polls (a future is never polled again after returning `Ready`). -/
def drive {B B2 : Type} : Nat → MapResBodyFut B B2 → DriveResult B2
  | 0, _ => DriveResult.timeout
  | fuel + 1, f =>
    match f.poll with
    | PollResult.pending f' => drive fuel f'
    | PollResult.ready r => DriveResult.out r
    | PollResult.fault => DriveResult.fault

/-- Observation: did the drive end by a panic of an `unwrap` call? -/
def DriveResult.isFault {B2 : Type} : DriveResult B2 → Bool
  | DriveResult.fault => true
  | _ => false

/-- Result of one `Service::poll_ready` call: pending, or ready with
`Ok(())` / an error. -/
inductive ReadyState where
  | pending
  | ready (r : Except Error Unit)
deriving DecidableEq, Repr

/-- Model of a wrapped actix `Service`: the readiness it currently reports
through `poll_ready`, and `call` producing its response future. -/
structure Service (B : Type) where
  poll_ready : ReadyState
  call : ServiceRequest → Fut (Except Error (ServiceResponse B))

/-- Source `MapResBodyService`: the wrapped service together with the shared
mapper function (`Rc<F>`). -/
structure MapResBodyService (B B2 : Type) where
  service : Service B
  mw_fn : B → Fut (Except Error B2)

/-- Expansion of `forward_ready!(service)`: readiness is delegated to the
wrapped service verbatim. -/
def MapResBodyService.poll_ready {B B2 : Type} (s : MapResBodyService B B2) :
    ReadyState :=
  s.service.poll_ready

/-- Source `MapResBodyService::call`: clone the mapper handle, call the
wrapped service, and return the combined future in the `Svc` state. -/
def MapResBodyService.call {B B2 : Type} (s : MapResBodyService B B2)
    (req : ServiceRequest) : MapResBodyFut B B2 :=
  ⟨s.mw_fn, MapResBodyFutState.Svc (s.service.call req)⟩

/-- Observation (the call counter of the spec): how many times this single
poll invokes the mapper function.  `(this.mw_fn)(body)` is reached only in
the `Svc` arm when the wrapped future resolves `Ok`. -/
def MapResBodyFut.pollFnCalls {B B2 : Type} (f : MapResBodyFut B B2) : Nat :=
  match f.state with
  | MapResBodyFutState.Svc fut =>
    match fut.poll with
    | Sum.inr (Except.ok _) => 1
    | _ => 0
  | MapResBodyFutState.Fn _ _ _ => 0

/-- Observation: total number of mapper invocations over a whole drive. -/
def driveFnCalls {B B2 : Type} : Nat → MapResBodyFut B B2 → Nat
  | 0, _ => 0
  | fuel + 1, f =>
    f.pollFnCalls +
      match f.poll with
      | PollResult.pending f' => driveFnCalls fuel f'
      | _ => 0

/-- Observation: is the future currently in the `Fn` (transforming) state? -/
def MapResBodyFut.inFnState {B B2 : Type} (f : MapResBodyFut B B2) : Bool :=
  match f.state with
  | MapResBodyFutState.Fn _ _ _ => true
  | MapResBodyFutState.Svc _ => false

/-- Observation: does the drive ever pass through the `Fn` state? -/
def driveEntersFn {B B2 : Type} : Nat → MapResBodyFut B B2 → Bool
  | 0, _ => false
  | fuel + 1, f =>
    f.inFnState ||
      match f.poll with
      | PollResult.pending f' => driveEntersFn fuel f'
      | _ => false

/-- Final value produced once the wrapped service resolved `Ok resp`:
on mapper success the stored request handle and head are recombined with
the new body, on mapper failure the error is propagated. -/
def fnOutcome {B B2 : Type} (mw_fn : B → Fut (Except Error B2))
    (resp : ServiceResponse B) : Except Error (ServiceResponse B2) :=
  match (mw_fn resp.response.body).result with
  | Except.error e => Except.error e
  | Except.ok b2 =>
    Except.ok (ServiceResponse.new resp.request
      ((HttpResponse.into_parts resp.response).fst.set_body b2))

/-- Final value of the whole combined future given the wrapped future. -/
def svcOutcome {B B2 : Type} (mw_fn : B → Fut (Except Error B2))
    (fut : Fut (Except Error (ServiceResponse B))) :
    Except Error (ServiceResponse B2) :=
  match fut.result with
  | Except.error e => Except.error e
  | Except.ok resp => fnOutcome mw_fn resp

/-- Number of `Pending` polls of the combined future: the wrapped delay,
plus (on success) the mapper delay — the mapper future is first polled in
the same poll in which the wrapped future resolves. -/
def svcDelay {B B2 : Type} (mw_fn : B → Fut (Except Error B2))
    (fut : Fut (Except Error (ServiceResponse B))) : Nat :=
  fut.delay +
    match fut.result with
    | Except.error _ => 0
    | Except.ok resp => (mw_fn resp.response.body).delay

/-- Denotation of a `MapResBodyService` as a plain service, used to stack
middleware layers; `drive_svc_eq` below proves it coincides with driving
the `MapResBodyFut` state machine. -/
def map_response_body_service {B B2 : Type} (mw_fn : B → Fut (Except Error B2))
    (svc : Service B) : Service B2 :=
  { poll_ready := svc.poll_ready,
    call := fun req =>
      ⟨svcDelay mw_fn (svc.call req), svcOutcome mw_fn (svc.call req)⟩ }

/-! ## Model of `src/src/local_data.rs` -/

/-- Source `LocalData<T>`: a shared (`Rc`) read-only handle to a value. -/
structure LocalData (T : Type) where
  value : T
deriving DecidableEq, Repr

/-- Source `LocalData::clone`: `Rc::clone` yields a handle to the same value. -/
def LocalData.clone {T : Type} (d : LocalData T) : LocalData T := d

/-- Model of the request as seen by `LocalData::<T>::from_request`:
`req.app_data::<LocalData<T>>()`, `req.match_name()` and `req.path()`. -/
structure ExtractorRequest (T : Type) where
  app_data : Option (LocalData T)
  matchName : Option String
  path : String

/-- Source `error::ErrorInternalServerError`: a 500-status error value. -/
def errorInternalServerError (msg : String) : Error := ⟨500, msg⟩

/-- Arguments of the `debug!` log emitted on a failed lookup: the type name
and the route identifier (`match_name`, falling back to `path`). -/
structure LogRecord where
  typeName : String
  route : String
deriving DecidableEq, Repr

/-- Source `LocalData::<T>::from_request`: if a `LocalData<T>` is registered
return a clone of it; otherwise log a diagnostic and return an
internal-server-error value.  `typeName` stands for `type_name::<T>()`.
The second component is the emitted log record, if any. -/
def LocalData.from_request {T : Type} (typeName : String)
    (req : ExtractorRequest T) :
    Except Error (LocalData T) × Option LogRecord :=
  match req.app_data with
  | some st => (Except.ok st.clone, none)
  | none =>
    (Except.error (errorInternalServerError
        "Requested application data is not configured correctly. View/enable debug logs for more details."),
     some ⟨typeName, req.matchName.getD req.path⟩)

/-! ## Executor lemmas for the state machine -/

/-- Driving from the `Fn` state with both slots populated completes within
`delay + 1` polls, propagating a mapper error unchanged and otherwise
recombining the stored request and head with the new body. -/
lemma drive_fn_some {B B2 : Type} (mw_fn : B → Fut (Except Error B2)) :
    ∀ (d : Nat) (r : Except Error B2) (req : HttpRequest)
      (res : HttpResponse Unit) (fuel : Nat), d + 1 ≤ fuel →
    drive fuel ⟨mw_fn, MapResBodyFutState.Fn ⟨d, r⟩ (some req) (some res)⟩ =
      DriveResult.out
        (match r with
          | Except.error e => Except.error e
          | Except.ok b =>
            Except.ok (ServiceResponse.new req (res.set_body b))) := by
  intro d
  induction d with
  | zero =>
    intro r req res fuel hf
    match fuel, hf with
    | fuel + 1, _ =>
      cases r <;>
        simp [drive, MapResBodyFut.poll, MapResBodyFut.pollFn, Fut.poll]
  | succ n ih =>
    intro r req res fuel hf
    match fuel, hf with
    | fuel + 1, hf =>
      have hn : n + 1 ≤ fuel := by omega
      simp [drive, MapResBodyFut.poll, MapResBodyFut.pollFn, Fut.poll,
        ih r req res fuel hn]

/-- Driving from the `Svc` state whose wrapped future resolves `Ok resp`
with no remaining delay completes within `1 + mapper delay` polls, with
final value `fnOutcome`. -/
lemma drive_svc_ok_zero {B B2 : Type} (mw_fn : B → Fut (Except Error B2))
    (resp : ServiceResponse B) :
    ∀ (fuel : Nat), (mw_fn resp.response.body).delay + 1 ≤ fuel →
    drive fuel ⟨mw_fn, MapResBodyFutState.Svc ⟨0, Except.ok resp⟩⟩ =
      DriveResult.out (fnOutcome mw_fn resp) := by
  intro fuel hf
  match fuel, hf with
  | fuel + 1, hf =>
    rcases h2 : mw_fn resp.response.body with ⟨d2, r2⟩
    rw [h2] at hf
    cases d2 with
    | zero =>
      cases r2 <;>
        simp [drive, MapResBodyFut.poll, MapResBodyFut.pollFn, Fut.poll,
          ServiceResponse.into_parts, HttpResponse.into_parts, fnOutcome, h2]
    | succ m =>
      have hd : (⟨m + 1, r2⟩ : Fut (Except Error B2)).delay = m + 1 := rfl
      rw [hd] at hf
      have hm : m + 1 ≤ fuel := by omega
      cases r2 <;>
        simp [drive, MapResBodyFut.poll, MapResBodyFut.pollFn, Fut.poll,
          ServiceResponse.into_parts, HttpResponse.into_parts, fnOutcome, h2,
          drive_fn_some mw_fn m _ _ _ fuel hm]

/-- Main executor lemma: from the initial `Svc` state, `svcDelay + 1` polls
suffice and the final value is `svcOutcome`. -/
lemma drive_svc_eq {B B2 : Type} (mw_fn : B → Fut (Except Error B2)) :
    ∀ (d : Nat) (r : Except Error (ServiceResponse B)) (fuel : Nat),
    svcDelay mw_fn ⟨d, r⟩ + 1 ≤ fuel →
    drive fuel ⟨mw_fn, MapResBodyFutState.Svc ⟨d, r⟩⟩ =
      DriveResult.out (svcOutcome mw_fn ⟨d, r⟩) := by
  intro d
  induction d with
  | zero =>
    intro r fuel hf
    cases r with
    | error e =>
      match fuel, hf with
      | fuel + 1, _ =>
        simp [drive, MapResBodyFut.poll, Fut.poll, svcOutcome]
    | ok resp =>
      have hf0 : (mw_fn resp.response.body).delay + 1 ≤ fuel := by
        simpa [svcDelay] using hf
      simpa [svcOutcome] using drive_svc_ok_zero mw_fn resp fuel hf0
  | succ n ih =>
    intro r fuel hf
    match fuel, hf with
    | fuel + 1, hf =>
      have hn : svcDelay mw_fn ⟨n, r⟩ + 1 ≤ fuel := by
        simp only [svcDelay] at hf ⊢
        omega
      have step :
          drive (fuel + 1) ⟨mw_fn, MapResBodyFutState.Svc ⟨n + 1, r⟩⟩ =
            drive fuel ⟨mw_fn, MapResBodyFutState.Svc ⟨n, r⟩⟩ := by
        simp [drive, MapResBodyFut.poll, Fut.poll]
      rw [step, ih r fuel hn]
      simp [svcOutcome]

/-- Restatement of `drive_svc_eq` for a packed future. -/
lemma drive_svc_eq_fut {B B2 : Type} (mw_fn : B → Fut (Except Error B2))
    (fut : Fut (Except Error (ServiceResponse B))) (fuel : Nat)
    (hf : svcDelay mw_fn fut + 1 ≤ fuel) :
    drive fuel ⟨mw_fn, MapResBodyFutState.Svc fut⟩ =
      DriveResult.out (svcOutcome mw_fn fut) := by
  rcases fut with ⟨d, r⟩
  exact drive_svc_eq mw_fn d r fuel hf

/-- Once in the `Fn` state the mapper is never invoked again: polls in the
`Fn` arm contribute nothing to the call counter. -/
lemma driveFnCalls_fn {B B2 : Type} (mw_fn : B → Fut (Except Error B2)) :
    ∀ (fuel d : Nat) (r : Except Error B2) (req : Option HttpRequest)
      (res : Option (HttpResponse Unit)),
    driveFnCalls fuel ⟨mw_fn, MapResBodyFutState.Fn ⟨d, r⟩ req res⟩ = 0 := by
  intro fuel
  induction fuel with
  | zero => intro d r req res; rfl
  | succ n ih =>
    intro d r req res
    cases d with
    | zero =>
      cases r with
      | error e =>
        simp [driveFnCalls, MapResBodyFut.pollFnCalls, MapResBodyFut.poll,
          MapResBodyFut.pollFn, Fut.poll]
      | ok b =>
        cases req <;> cases res <;>
          simp [driveFnCalls, MapResBodyFut.pollFnCalls, MapResBodyFut.poll,
            MapResBodyFut.pollFn, Fut.poll]
    | succ m =>
      simp [driveFnCalls, MapResBodyFut.pollFnCalls, MapResBodyFut.poll,
        MapResBodyFut.pollFn, Fut.poll, ih]

/-- A wrapped-service failure means the mapper is never invoked: the call
counter stays at zero over the whole drive, for any fuel. -/
lemma driveFnCalls_svc_error {B B2 : Type} (mw_fn : B → Fut (Except Error B2)) :
    ∀ (fuel d : Nat) (e : Error),
    driveFnCalls fuel
      ⟨mw_fn, MapResBodyFutState.Svc ⟨d, Except.error e⟩⟩ = 0 := by
  intro fuel
  induction fuel with
  | zero => intro d e; rfl
  | succ n ih =>
    intro d e
    cases d with
    | zero =>
      simp [driveFnCalls, MapResBodyFut.pollFnCalls, MapResBodyFut.poll,
        Fut.poll]
    | succ m =>
      simp [driveFnCalls, MapResBodyFut.pollFnCalls, MapResBodyFut.poll,
        Fut.poll, ih]

/-- On wrapped-service success with enough fuel the mapper is invoked
exactly once. -/
lemma driveFnCalls_svc_ok {B B2 : Type} (mw_fn : B → Fut (Except Error B2)) :
    ∀ (fuel d : Nat) (resp : ServiceResponse B), d + 1 ≤ fuel →
    driveFnCalls fuel
      ⟨mw_fn, MapResBodyFutState.Svc ⟨d, Except.ok resp⟩⟩ = 1 := by
  intro fuel
  induction fuel with
  | zero => intro d resp h; omega
  | succ n ih =>
    intro d resp h
    cases d with
    | zero =>
      rcases h2 : mw_fn resp.response.body with ⟨d2, r2⟩
      cases d2 with
      | zero =>
        cases r2 <;>
          simp [driveFnCalls, MapResBodyFut.pollFnCalls, MapResBodyFut.poll,
            MapResBodyFut.pollFn, Fut.poll, ServiceResponse.into_parts,
            HttpResponse.into_parts, h2]
      | succ m =>
        simp [driveFnCalls, MapResBodyFut.pollFnCalls, MapResBodyFut.poll,
          MapResBodyFut.pollFn, Fut.poll, ServiceResponse.into_parts,
          HttpResponse.into_parts, h2, driveFnCalls_fn mw_fn]
    | succ m =>
      have hm : m + 1 ≤ n := by omega
      simp [driveFnCalls, MapResBodyFut.pollFnCalls, MapResBodyFut.poll,
        Fut.poll, ih m resp hm]

/-- Whatever happens, the mapper is invoked at most once per request. -/
lemma driveFnCalls_le_one {B B2 : Type} (mw_fn : B → Fut (Except Error B2)) :
    ∀ (fuel d : Nat) (r : Except Error (ServiceResponse B)),
    driveFnCalls fuel ⟨mw_fn, MapResBodyFutState.Svc ⟨d, r⟩⟩ ≤ 1 := by
  intro fuel
  induction fuel with
  | zero => intro d r; simp [driveFnCalls]
  | succ n ih =>
    intro d r
    cases d with
    | zero =>
      cases r with
      | error e =>
        simp [driveFnCalls, MapResBodyFut.pollFnCalls, MapResBodyFut.poll,
          Fut.poll]
      | ok resp =>
        rcases h2 : mw_fn resp.response.body with ⟨d2, r2⟩
        cases d2 with
        | zero =>
          cases r2 <;>
            simp [driveFnCalls, MapResBodyFut.pollFnCalls, MapResBodyFut.poll,
              MapResBodyFut.pollFn, Fut.poll, ServiceResponse.into_parts,
              HttpResponse.into_parts, h2]
        | succ m =>
          simp [driveFnCalls, MapResBodyFut.pollFnCalls, MapResBodyFut.poll,
            MapResBodyFut.pollFn, Fut.poll, ServiceResponse.into_parts,
            HttpResponse.into_parts, h2, driveFnCalls_fn mw_fn]
    | succ m =>
      simpa [driveFnCalls, MapResBodyFut.pollFnCalls, MapResBodyFut.poll,
        Fut.poll] using ih m r

/-- A wrapped-service failure means the `Fn` (transforming) state is never
entered, for any fuel. -/
lemma driveEntersFn_svc_error {B B2 : Type} (mw_fn : B → Fut (Except Error B2)) :
    ∀ (fuel d : Nat) (e : Error),
    driveEntersFn fuel
      ⟨mw_fn, MapResBodyFutState.Svc ⟨d, Except.error e⟩⟩ = false := by
  intro fuel
  induction fuel with
  | zero => intro d e; rfl
  | succ n ih =>
    intro d e
    cases d with
    | zero =>
      simp [driveEntersFn, MapResBodyFut.inFnState, MapResBodyFut.poll,
        Fut.poll]
    | succ m =>
      simp [driveEntersFn, MapResBodyFut.inFnState, MapResBodyFut.poll,
        Fut.poll, ih]

/-- Driving from an `Fn` state whose slots are both populated never hits
the `unwrap` fault. -/
lemma drive_fn_some_ne_fault {B B2 : Type} (mw_fn : B → Fut (Except Error B2)) :
    ∀ (fuel d : Nat) (r : Except Error B2) (req : HttpRequest)
      (res : HttpResponse Unit),
    drive fuel ⟨mw_fn, MapResBodyFutState.Fn ⟨d, r⟩ (some req) (some res)⟩ ≠
      DriveResult.fault := by
  intro fuel
  induction fuel with
  | zero => intro d r req res h; cases h
  | succ n ih =>
    intro d r req res
    cases d with
    | zero =>
      cases r <;>
        simp [drive, MapResBodyFut.poll, MapResBodyFut.pollFn, Fut.poll]
    | succ m =>
      simpa [drive, MapResBodyFut.poll, MapResBodyFut.pollFn, Fut.poll]
        using ih m r req res

/-- Driving from the initial `Svc` state never hits the `unwrap` fault:
whenever the mapper future resolves, the request-handle and head slots are
still populated. -/
lemma drive_svc_ne_fault {B B2 : Type} (mw_fn : B → Fut (Except Error B2)) :
    ∀ (fuel d : Nat) (r : Except Error (ServiceResponse B)),
    drive fuel ⟨mw_fn, MapResBodyFutState.Svc ⟨d, r⟩⟩ ≠
      DriveResult.fault := by
  intro fuel
  induction fuel with
  | zero => intro d r h; cases h
  | succ n ih =>
    intro d r
    cases d with
    | zero =>
      cases r with
      | error e => simp [drive, MapResBodyFut.poll, Fut.poll]
      | ok resp =>
        rcases h2 : mw_fn resp.response.body with ⟨d2, r2⟩
        cases d2 with
        | zero =>
          cases r2 <;>
            simp [drive, MapResBodyFut.poll, MapResBodyFut.pollFn, Fut.poll,
              ServiceResponse.into_parts, HttpResponse.into_parts, h2]
        | succ m =>
          simpa [drive, MapResBodyFut.poll, MapResBodyFut.pollFn, Fut.poll,
            ServiceResponse.into_parts, HttpResponse.into_parts, h2]
            using drive_fn_some_ne_fault mw_fn n m r2 resp.request
              (HttpResponse.into_parts resp.response).fst
    | succ m =>
      simpa [drive, MapResBodyFut.poll, Fut.poll] using ih m r

/-! ## Claim theorems -/

/-- C1: if the mapper function is the identity (its future resolves with
its input body unchanged) and the wrapped service resolves with a
response, the combined future resolves with a response whose body bytes,
status and headers equal those of the wrapped response. -/
theorem identity_transform_preserves_response {B : Type}
    (mw_fn : B → Fut (Except Error B))
    (hid : ∀ b, (mw_fn b).result = Except.ok b)
    (fut : Fut (Except Error (ServiceResponse B))) (resp : ServiceResponse B)
    (hsvc : fut.result = Except.ok resp)
    (fuel : Nat) (hf : svcDelay mw_fn fut + 1 ≤ fuel) :
    drive fuel ⟨mw_fn, MapResBodyFutState.Svc fut⟩ =
      DriveResult.out (Except.ok resp) := by
  rcases fut with ⟨d, r⟩
  have hr : r = Except.ok resp := hsvc
  subst hr
  rw [drive_svc_eq mw_fn d (Except.ok resp) fuel hf]
  rcases resp with ⟨rq, ⟨st, hd, bd⟩⟩
  simp [svcOutcome, fnOutcome, hid, ServiceResponse.new,
    HttpResponse.into_parts, HttpResponse.set_body]

/-- Witness for C1 at a concrete request. -/
theorem identity_transform_preserves_response_witness :
    drive 3 ⟨fun (b : String) => ⟨1, Except.ok b⟩,
        MapResBodyFutState.Svc
          ⟨1, Except.ok ⟨⟨1⟩, ⟨200, [("k", "v")], "abc"⟩⟩⟩⟩ =
      DriveResult.out (Except.ok ⟨⟨1⟩, ⟨200, [("k", "v")], "abc"⟩⟩) :=
  identity_transform_preserves_response _ (fun _ => rfl) _ _ rfl 3 (by decide)

/-- C2: if the wrapped service resolves with an error, the combined future
resolves with that same error, the mapper is never invoked, and the state
machine never enters the `Fn` (transforming) state. -/
theorem inner_error_short_circuits {B B2 : Type}
    (mw_fn : B → Fut (Except Error B2)) (d : Nat) (e : Error) (fuel : Nat)
    (hf : d + 1 ≤ fuel) :
    drive fuel ⟨mw_fn, MapResBodyFutState.Svc ⟨d, Except.error e⟩⟩ =
        DriveResult.out (Except.error e) ∧
      driveFnCalls fuel
        ⟨mw_fn, MapResBodyFutState.Svc ⟨d, Except.error e⟩⟩ = 0 ∧
      driveEntersFn fuel
        ⟨mw_fn, MapResBodyFutState.Svc ⟨d, Except.error e⟩⟩ = false := by
  refine ⟨?_, driveFnCalls_svc_error mw_fn fuel d e,
    driveEntersFn_svc_error mw_fn fuel d e⟩
  have hf' : svcDelay mw_fn ⟨d, Except.error e⟩ + 1 ≤ fuel := by
    simpa [svcDelay] using hf
  simpa [svcOutcome] using drive_svc_eq mw_fn d (Except.error e) fuel hf'

/-- Witness for C2 at a concrete request. -/
theorem inner_error_short_circuits_witness :
    drive 4 ⟨fun (b : String) => ⟨0, Except.ok b⟩,
        MapResBodyFutState.Svc ⟨2, Except.error ⟨502, "boom"⟩⟩⟩ =
        DriveResult.out (Except.error ⟨502, "boom"⟩) ∧
      driveFnCalls 4 ⟨fun (b : String) => ⟨0, Except.ok b⟩,
        MapResBodyFutState.Svc ⟨2, Except.error ⟨502, "boom"⟩⟩⟩ = 0 ∧
      driveEntersFn 4 ⟨fun (b : String) => ⟨0, Except.ok b⟩,
        MapResBodyFutState.Svc ⟨2, Except.error ⟨502, "boom"⟩⟩⟩ = false :=
  inner_error_short_circuits _ 2 ⟨502, "boom"⟩ 4 (by decide)

/-- C3: if the wrapped service succeeded and the mapper future resolves
with an error, the combined future resolves with that same error; no
response is reassembled. -/
theorem transform_error_propagates {B B2 : Type}
    (mw_fn : B → Fut (Except Error B2))
    (fut : Fut (Except Error (ServiceResponse B))) (resp : ServiceResponse B)
    (e : Error)
    (hsvc : fut.result = Except.ok resp)
    (herr : (mw_fn resp.response.body).result = Except.error e)
    (fuel : Nat) (hf : svcDelay mw_fn fut + 1 ≤ fuel) :
    drive fuel ⟨mw_fn, MapResBodyFutState.Svc fut⟩ =
      DriveResult.out (Except.error e) := by
  rcases fut with ⟨d, r⟩
  have hr : r = Except.ok resp := hsvc
  subst hr
  rw [drive_svc_eq mw_fn d (Except.ok resp) fuel hf]
  simp [svcOutcome, fnOutcome, herr]

/-- Witness for C3 at a concrete request. -/
theorem transform_error_propagates_witness :
    drive 2 ⟨fun (_ : String) =>
          (⟨1, Except.error ⟨400, "bad"⟩⟩ : Fut (Except Error String)),
        MapResBodyFutState.Svc
          ⟨0, Except.ok ⟨⟨1⟩, ⟨200, [], "abc"⟩⟩⟩⟩ =
      DriveResult.out (Except.error ⟨400, "bad"⟩) :=
  transform_error_propagates _ _ ⟨⟨1⟩, ⟨200, [], "abc"⟩⟩ ⟨400, "bad"⟩ rfl rfl
    2 (by decide)

/-- C4: on every successfully completed request the head of the final
response — status, headers and the associated request handle — is exactly
the head produced by the wrapped service; only the body slot differs,
whatever the mapper function is. -/
theorem head_preserved_on_success {B B2 : Type}
    (mw_fn : B → Fut (Except Error B2))
    (fut : Fut (Except Error (ServiceResponse B))) (resp : ServiceResponse B)
    (b2 : B2)
    (hsvc : fut.result = Except.ok resp)
    (hok : (mw_fn resp.response.body).result = Except.ok b2)
    (fuel : Nat) (hf : svcDelay mw_fn fut + 1 ≤ fuel) :
    drive fuel ⟨mw_fn, MapResBodyFutState.Svc fut⟩ =
      DriveResult.out (Except.ok
        ⟨resp.request,
          ⟨resp.response.status, resp.response.headers, b2⟩⟩) := by
  rcases fut with ⟨d, r⟩
  have hr : r = Except.ok resp := hsvc
  subst hr
  rw [drive_svc_eq mw_fn d (Except.ok resp) fuel hf]
  simp [svcOutcome, fnOutcome, hok, ServiceResponse.new,
    HttpResponse.into_parts, HttpResponse.set_body]

/-- Witness for C4 at a concrete request. -/
theorem head_preserved_on_success_witness :
    drive 1 ⟨fun (_ : String) => ⟨0, Except.ok 99⟩,
        MapResBodyFutState.Svc
          ⟨0, Except.ok ⟨⟨5⟩, ⟨201, [("a", "b")], "old"⟩⟩⟩⟩ =
      DriveResult.out (Except.ok ⟨⟨5⟩, ⟨201, [("a", "b")], (99 : Nat)⟩⟩) :=
  head_preserved_on_success _ _ ⟨⟨5⟩, ⟨201, [("a", "b")], "old"⟩⟩ 99 rfl rfl
    1 (by decide)

/-- C5: for any single request the mapper function is invoked at most once
over the whole lifetime of the future, and exactly once whenever the
wrapped service succeeds and the future is driven to completion. -/
theorem mapper_invoked_exactly_once {B B2 : Type}
    (mw_fn : B → Fut (Except Error B2))
    (fut : Fut (Except Error (ServiceResponse B))) (fuel : Nat) :
    driveFnCalls fuel ⟨mw_fn, MapResBodyFutState.Svc fut⟩ ≤ 1 ∧
      (∀ resp, fut.result = Except.ok resp → fut.delay + 1 ≤ fuel →
        driveFnCalls fuel ⟨mw_fn, MapResBodyFutState.Svc fut⟩ = 1) := by
  rcases fut with ⟨d, r⟩
  refine ⟨driveFnCalls_le_one mw_fn fuel d r, ?_⟩
  intro resp hres hfu
  have hr : r = Except.ok resp := hres
  subst hr
  exact driveFnCalls_svc_ok mw_fn fuel d resp hfu

/-- Witness for C5 at a concrete request. -/
theorem mapper_invoked_exactly_once_witness :
    driveFnCalls 5 ⟨fun (b : String) => ⟨3, Except.ok b⟩,
        MapResBodyFutState.Svc
          ⟨1, Except.ok ⟨⟨2⟩, ⟨200, [], "x"⟩⟩⟩⟩ ≤ 1 ∧
      driveFnCalls 5 ⟨fun (b : String) => ⟨3, Except.ok b⟩,
        MapResBodyFutState.Svc
          ⟨1, Except.ok ⟨⟨2⟩, ⟨200, [], "x"⟩⟩⟩⟩ = 1 :=
  ⟨(mapper_invoked_exactly_once _ _ 5).1,
    (mapper_invoked_exactly_once _ _ 5).2 ⟨⟨2⟩, ⟨200, [], "x"⟩⟩ rfl
      (by decide)⟩

/-- C6: stacking three middleware layers A, B, C around a handler, with C
outermost, the transform closest to the handler runs first and each outer
transform receives the output of the layer beneath it; with A and B
identity transforms and C a transform that ignores its input and returns
the literal body `foo`, the final body is exactly `foo` for any handler
body, with head and request handle preserved. -/
theorem stacked_outermost_replacement_body
    (handler : Service String)
    (idA idB fooFn : String → Fut (Except Error String))
    (hA : ∀ b, (idA b).result = Except.ok b)
    (hB : ∀ b, (idB b).result = Except.ok b)
    (hC : ∀ b, (fooFn b).result = Except.ok "foo")
    (req : ServiceRequest) (resp : ServiceResponse String)
    (hh : (handler.call req).result = Except.ok resp)
    (fuel : Nat)
    (hf : svcDelay fooFn
        ((map_response_body_service idB
          (map_response_body_service idA handler)).call req) + 1 ≤ fuel) :
    drive fuel (MapResBodyService.call
        ⟨map_response_body_service idB
          (map_response_body_service idA handler), fooFn⟩ req) =
      DriveResult.out (Except.ok
        ⟨resp.request,
          ⟨resp.response.status, resp.response.headers, "foo"⟩⟩) := by
  rcases resp with ⟨rq, ⟨st, hd, bd⟩⟩
  rw [MapResBodyService.call]
  rw [drive_svc_eq_fut fooFn _ fuel hf]
  simp [map_response_body_service, svcOutcome, fnOutcome, hh, hA, hB, hC,
    ServiceResponse.new, HttpResponse.into_parts, HttpResponse.set_body]

/-- Witness for C6 at a concrete handler and request. -/
theorem stacked_outermost_replacement_body_witness :
    drive 1 (MapResBodyService.call
        ⟨map_response_body_service (fun b => ⟨0, Except.ok b⟩)
          (map_response_body_service (fun b => ⟨0, Except.ok b⟩)
            { poll_ready := ReadyState.ready (Except.ok ()),
              call := fun _ => ⟨0, Except.ok ⟨⟨3⟩, ⟨200, [], ""⟩⟩⟩ }),
          fun _ => ⟨0, Except.ok "foo"⟩⟩ ⟨⟨3⟩⟩) =
      DriveResult.out (Except.ok ⟨⟨3⟩, ⟨200, [], "foo"⟩⟩) :=
  stacked_outermost_replacement_body _ _ _ _ (fun _ => rfl) (fun _ => rfl)
    (fun _ => rfl) ⟨⟨3⟩⟩ ⟨⟨3⟩, ⟨200, [], ""⟩⟩ rfl 1 (by decide)

/-- C7: on the poll in which the wrapped future resolves successfully, the
freshly created mapper future is polled within that same poll call: if it
is already ready the combined future completes in that single poll, and
otherwise the pending state holds the mapper future already advanced by
one poll (its delay decremented). -/
theorem ready_transform_completes_in_one_poll {B B2 : Type}
    (mw_fn : B → Fut (Except Error B2)) (resp : ServiceResponse B) :
    ((mw_fn resp.response.body).delay = 0 →
      MapResBodyFut.poll
          ⟨mw_fn, MapResBodyFutState.Svc ⟨0, Except.ok resp⟩⟩ =
        PollResult.ready (fnOutcome mw_fn resp)) ∧
      (∀ m, (mw_fn resp.response.body).delay = m + 1 →
        MapResBodyFut.poll
            ⟨mw_fn, MapResBodyFutState.Svc ⟨0, Except.ok resp⟩⟩ =
          PollResult.pending ⟨mw_fn,
            MapResBodyFutState.Fn
              ⟨m, (mw_fn resp.response.body).result⟩
              (some resp.request)
              (some (HttpResponse.into_parts resp.response).fst)⟩) := by
  constructor
  · intro h0
    rcases h2 : mw_fn resp.response.body with ⟨d2, r2⟩
    rw [h2] at h0
    have hd : d2 = 0 := h0
    subst hd
    cases r2 <;>
      simp [MapResBodyFut.poll, MapResBodyFut.pollFn, Fut.poll,
        ServiceResponse.into_parts, HttpResponse.into_parts, fnOutcome, h2]
  · intro m hm
    rcases h2 : mw_fn resp.response.body with ⟨d2, r2⟩
    rw [h2] at hm
    have hd : d2 = m + 1 := hm
    subst hd
    simp [MapResBodyFut.poll, MapResBodyFut.pollFn, Fut.poll,
      ServiceResponse.into_parts, HttpResponse.into_parts, h2]

/-- Witness for C7 at a concrete request with an already-ready mapper. -/
theorem ready_transform_completes_in_one_poll_witness :
    MapResBodyFut.poll ⟨fun (b : String) => ⟨0, Except.ok (b ++ "!")⟩,
        MapResBodyFutState.Svc
          ⟨0, Except.ok ⟨⟨4⟩, ⟨200, [], "hi"⟩⟩⟩⟩ =
      PollResult.ready (Except.ok ⟨⟨4⟩, ⟨200, [], "hi!"⟩⟩) :=
  (ready_transform_completes_in_one_poll _ ⟨⟨4⟩, ⟨200, [], "hi"⟩⟩).1 rfl

/-- C8: driving the combined future from its initial state never hits the
`unwrap` panic in the `Fn` arm: whenever the mapper future resolves, the
stored request-handle and head slots are still populated, so taking them
cannot fault. -/
theorem take_on_completion_never_faults {B B2 : Type}
    (mw_fn : B → Fut (Except Error B2))
    (fut : Fut (Except Error (ServiceResponse B))) (fuel : Nat) :
    (drive fuel ⟨mw_fn, MapResBodyFutState.Svc fut⟩).isFault = false := by
  rcases fut with ⟨d, r⟩
  have h := drive_svc_ne_fault mw_fn fuel d r
  rcases hres : drive fuel ⟨mw_fn, MapResBodyFutState.Svc ⟨d, r⟩⟩ with
    _ | _ | _
  · rfl
  · exact absurd hres h
  · rfl

/-- C9: the `LocalData` lookup returns the registered shared handle when a
value of the requested type is present, and otherwise returns an
internal-server-error value (not a panic) while logging the type name and
the route identifier, falling back to the request path. -/
theorem local_data_lookup_contract {T : Type} (typeName : String)
    (req : ExtractorRequest T) :
    (∀ v, req.app_data = some v →
      LocalData.from_request typeName req = (Except.ok v, none)) ∧
      (req.app_data = none →
        LocalData.from_request typeName req =
          (Except.error ⟨500,
            "Requested application data is not configured correctly. View/enable debug logs for more details."⟩,
           some ⟨typeName, req.matchName.getD req.path⟩)) := by
  constructor
  · intro v hv
    simp [LocalData.from_request, hv, LocalData.clone]
  · intro hn
    simp [LocalData.from_request, hn, errorInternalServerError]

/-- Witness for C9: a registered and an unregistered lookup. -/
theorem local_data_lookup_contract_witness :
    LocalData.from_request "usize"
        (⟨some ⟨10⟩, some "index", "/"⟩ : ExtractorRequest Nat) =
        (Except.ok ⟨10⟩, none) ∧
      LocalData.from_request "usize"
        (⟨none, none, "/login"⟩ : ExtractorRequest Nat) =
        (Except.error ⟨500,
          "Requested application data is not configured correctly. View/enable debug logs for more details."⟩,
         some ⟨"usize", "/login"⟩) :=
  ⟨(local_data_lookup_contract "usize" _).1 ⟨10⟩ rfl,
    (local_data_lookup_contract "usize" _).2 rfl⟩

/-- C10: the readiness check of the middleware service is exactly the
readiness check of the wrapped service (`forward_ready!`): it reports
ready if and only if the wrapped service does, adding no condition and
doing no work of its own. -/
theorem readiness_forwarded {B B2 : Type} (s : MapResBodyService B B2) :
    MapResBodyService.poll_ready s = s.service.poll_ready ∧
      (MapResBodyService.poll_ready s = ReadyState.ready (Except.ok ()) ↔
        s.service.poll_ready = ReadyState.ready (Except.ok ())) :=
  ⟨rfl, Iff.rfl⟩

end ActixWebLab
